import Mathlib

/-!
Verification development for the AirAlert geospatial threshold-alerting
pipeline.  The definitions below are shallow embeddings of the Python
source under `backend/gis_processing` (interpolation.py, threshold.py,
dispersion.py) and `backend/alerts/trigger.py`.  Machine floats are
idealised as exact rationals (or reals for the dispersion model);
geometries are represented by the data the algorithms actually inspect.
-/

namespace Interp

/-- A sample point with a definite numeric value, as used by
`SpatialInterpolator._idw_interpolation` after NaN filtering
(coordinates `x`, `y` and the measured `value`). -/
structure SamplePt where
  x : ℚ
  y : ℚ
  value : ℚ
deriving DecidableEq

/-- Squared euclidean distance from grid-cell coordinate `(cx, cy)` to a
sample, mirroring `distances = sqrt((xi-x)**2 + (yi-y)**2)` (we keep the
square to stay inside ℚ; all comparisons are against the squared
epsilon). -/
def dist2 (cx cy : ℚ) (s : SamplePt) : ℚ :=
  (cx - s.x) ^ 2 + (cy - s.y) ^ 2

/-- Squared exact-match epsilon: the source tests `min(distances) < 1e-8`;
for nonnegative distances this is equivalent to the squared distance
being below `(1e-8)^2 = 1/10^16`. -/
def eps2 : ℚ := 1 / 10 ^ 16

/-- Value assigned by `SpatialInterpolator._idw_interpolation` to the grid
cell at coordinate `(cx, cy)`.  The source takes the value of the first
sample within the epsilon when `np.min(distances) < 1e-8`
(`zi[i, j] = z[distances < 1e-8][0]`), and otherwise the inverse-distance
weighted average with the default power 2, so each weight
`1/distance**2` is exactly `1 / dist2`. -/
def idwCell (samples : List SamplePt) (cx cy : ℚ) : ℚ :=
  match samples.find? (fun s => decide (dist2 cx cy s < eps2)) with
  | some s => s.value
  | none =>
      (samples.map (fun s => (1 / dist2 cx cy s) * s.value)).sum /
        (samples.map (fun s => 1 / dist2 cx cy s)).sum

/-- An input sample whose value may be missing: `value = none` models a
NaN entry in the value column (filtered out by
`valid_indices = ~np.isnan(z)`). -/
structure Sample2 where
  x : ℚ
  y : ℚ
  value : Option ℚ
deriving DecidableEq

/-- Number of grid coordinates produced by `np.arange(lo, hi, res)` for a
positive resolution: the count of naturals `k` with `lo + k * res < hi`. -/
def numCells (res lo hi : ℚ) : ℕ :=
  if 0 < res then (⌈(hi - lo) / res⌉).toNat else 0

/-- Result of a successful interpolation run: the interpolated grid
(rows indexed bottom-up, matching the `meshgrid` layout where row `i`
has `y = miny + i * res`) together with the bounds used. -/
structure InterpResult where
  grid : List (List ℚ)
  bounds : ℚ × ℚ × ℚ × ℚ
deriving DecidableEq

/-- Shallow embedding of `SpatialInterpolator.interpolate` for the
default method `idw` (the RBF/kriging branches call transcendental
numeric backends and are outside the claims checked here; method-name
validation happens before any of the steps modelled below and substitutes
the default).  Faithful to the source order: empty-input check, NaN
filtering, zero-valid check, bounds defaulting to the sample extent
padded by 10 cells, then the IDW surface. -/
def interpolate (res : ℚ) (points : List Sample2)
    (bounds : Option (ℚ × ℚ × ℚ × ℚ)) : Except String InterpResult :=
  if points.isEmpty then .error "Cannot interpolate from empty data"
  else
    let valid : List SamplePt :=
      points.filterMap (fun s => s.value.map (fun v => SamplePt.mk s.x s.y v))
    if valid.isEmpty then .error "No valid values to interpolate"
    else
      let xs := valid.map SamplePt.x
      let ys := valid.map SamplePt.y
      let b : ℚ × ℚ × ℚ × ℚ :=
        match bounds with
        | some b0 => b0
        | none =>
            (xs.foldl min (xs.headD 0) - res * 10,
             ys.foldl min (ys.headD 0) - res * 10,
             xs.foldl max (xs.headD 0) + res * 10,
             ys.foldl max (ys.headD 0) + res * 10)
      let nx := numCells res b.1 b.2.2.1
      let ny := numCells res b.2.1 b.2.2.2
      .ok { grid :=
              (List.range ny).map (fun i =>
                (List.range nx).map (fun j =>
                  idwCell valid (b.1 + j * res) (b.2.1 + i * res))),
            bounds := b }

/-- C2: for a grid cell lying within the epsilon of some input sample,
IDW interpolation assigns that cell exactly that sample's value (the
exact-match short circuit), not the inverse-distance weighted average.
When several samples lie within the epsilon the source uses the first
one in input order (`z[distances < 1e-8][0]`); the sample named by the
conclusion is that one. -/
theorem idw_exact_match (samples : List SamplePt) (cx cy : ℚ)
    (h : ∃ s ∈ samples, dist2 cx cy s < eps2) :
    ∃ s ∈ samples, dist2 cx cy s < eps2 ∧ idwCell samples cx cy = s.value := by
  have hsome : (samples.find? (fun s => decide (dist2 cx cy s < eps2))).isSome := by
    rw [List.find?_isSome]
    obtain ⟨s, hs, hd⟩ := h
    exact ⟨s, hs, by simpa using hd⟩
  obtain ⟨s, hfind⟩ := Option.isSome_iff_exists.mp hsome
  refine ⟨s, List.mem_of_find?_eq_some hfind, ?_, ?_⟩
  · simpa using List.find?_some hfind
  · unfold idwCell
    rw [hfind]

/-- Witness for C2 at a concrete input: a single sample at the origin
with value 7, queried at the origin. -/
theorem idw_exact_match_witness :
    (∃ s ∈ [SamplePt.mk 0 0 7], dist2 0 0 s < eps2) ∧
      ∃ s ∈ [SamplePt.mk 0 0 7], dist2 0 0 s < eps2 ∧
        idwCell [SamplePt.mk 0 0 7] 0 0 = s.value := by
  have hw : dist2 0 0 (SamplePt.mk 0 0 7) < eps2 := by
    norm_num [dist2, eps2]
  exact ⟨⟨_, List.mem_singleton_self _, hw⟩,
    idw_exact_match [SamplePt.mk 0 0 7] 0 0 ⟨_, List.mem_singleton_self _, hw⟩⟩

/-- C8: `interpolate` fails (with a ValueError) exactly when zero valid
samples remain after dropping the missing/NaN values; equivalently it
never produces a grid from an all-NaN or empty sample set (the empty
set is caught by the first guard, an all-NaN set by the second). -/
theorem interpolate_error_iff_no_valid (res : ℚ) (points : List Sample2)
    (bounds : Option (ℚ × ℚ × ℚ × ℚ)) :
    (∃ e, interpolate res points bounds = .error e) ↔
      points.filterMap Sample2.value = [] := by
  have hval : (points.filterMap
        (fun s => s.value.map (fun v => SamplePt.mk s.x s.y v))) = [] ↔
      points.filterMap Sample2.value = [] := by
    simp only [List.filterMap_eq_nil_iff, Option.map_eq_none']
  unfold interpolate
  by_cases hp : points.isEmpty
  · have : points = [] := List.isEmpty_iff.mp hp
    subst this
    simp
  · simp only [hp, Bool.false_eq_true, if_false]
    by_cases hv : (points.filterMap
        (fun s => s.value.map (fun v => SamplePt.mk s.x s.y v))).isEmpty
    · simp only [hv, if_true]
      simp only [List.isEmpty_iff] at hv
      simp [hval.mp hv]
    · simp only [hv, Bool.false_eq_true, if_false]
      simp only [List.isEmpty_iff] at hv
      constructor
      · rintro ⟨e, he⟩
        exact absurd he (by simp)
      · intro hnil
        exact absurd (hval.mpr hnil) hv

end Interp

namespace Threshold

/-- A set of grid cells of an `m × n` concentration grid.  The polygons
produced by `create_exceedance_polygons` are the connected-region
tracing of a boolean cell mask, so a polygon layer is identified with
the set of cells it covers; the `gpd.overlay(..., how="difference")`
call is then exactly set difference of covered cells (interiors). -/
abbrev CellSet (m n : ℕ) := Finset (Fin m × Fin n)

/-- The nested threshold table: pollutant name to (severity level to
numeric threshold), mirroring the `thresholds` dict of
`ThresholdDetector`. -/
def Thresholds : Type := String → Option (String → Option ℚ)

/-- One pollutant's row of `ThresholdDetector.DEFAULT_THRESHOLDS`. -/
def levelsOf (g mo us uh vu hz : ℚ) : String → Option ℚ := fun l =>
  if l = "good" then some g
  else if l = "moderate" then some mo
  else if l = "unhealthy_sensitive" then some us
  else if l = "unhealthy" then some uh
  else if l = "very_unhealthy" then some vu
  else if l = "hazardous" then some hz
  else none

/-- `ThresholdDetector.DEFAULT_THRESHOLDS` (decimal values as exact
rationals). -/
def defaultThresholds : Thresholds := fun p =>
  if p = "pm25" then some (levelsOf 12 (354/10) (554/10) (1504/10) (2504/10) (3504/10))
  else if p = "pm10" then some (levelsOf 54 154 254 354 424 504)
  else if p = "o3" then some (levelsOf 54 70 85 105 200 300)
  else if p = "no2" then some (levelsOf 53 100 360 649 1249 1649)
  else if p = "so2" then some (levelsOf 35 75 185 304 604 804)
  else if p = "co" then some (levelsOf (44/10) (94/10) (124/10) (154/10) (304/10) (404/10))
  else if p = "aqi" then some (levelsOf 50 100 150 200 300 500)
  else none

/-- Threshold row used for a pollutant: the pollutant's own row when
present, else the generic `aqi` row (with a warning in the source), else
nothing — models `self.thresholds.get("aqi", ...)` fallback in
`identify_threshold_exceedances`. -/
def pollutantThresholds (T : Thresholds) (p : String) : String → Option ℚ :=
  match T p with
  | some levels => levels
  | none =>
      match T "aqi" with
      | some levels => levels
      | none => fun _ => none

/-- The severity levels checked by `identify_threshold_exceedances`,
most to least severe (the loop order in the source). -/
def severityLevels : List String :=
  ["hazardous", "very_unhealthy", "unhealthy", "unhealthy_sensitive", "moderate"]

/-- The boolean exceedance mask of `detect_exceedances` for threshold
`t`: the cells whose concentration strictly exceeds `t`
(`concentration > threshold`). -/
def exceedanceMask {m n : ℕ} (conc : Fin m → Fin n → ℚ) (t : ℚ) : CellSet m n :=
  Finset.univ.filter (fun c => t < conc c.1 c.2)

/-- Union of the cell sets already stored in the running result. -/
def unionSets {m n : ℕ} (result : List (String × CellSet m n)) : CellSet m n :=
  result.foldr (fun e acc => e.2 ∪ acc) ∅

/-- One iteration of the severity loop in
`identify_threshold_exceedances`: skip an unconfigured level
(`continue`); otherwise build the mask, vectorize it, and if non-empty
subtract every already-produced (more severe) layer in turn; the
empty-mask branch stores an empty layer.  The per-layer guards
`not gdf.empty and not result[more_severe].empty` only skip no-op
differences and are absorbed by plain set difference. -/
def identifyStep {m n : ℕ} (pmap : String → Option ℚ) (conc : Fin m → Fin n → ℚ)
    (result : List (String × CellSet m n)) (level : String) :
    List (String × CellSet m n) :=
  match pmap level with
  | none => result
  | some t =>
      if exceedanceMask conc t = ∅ then result ++ [(level, (∅ : CellSet m n))]
      else result ++
        [(level, result.foldl (fun g e => g \ e.2) (exceedanceMask conc t))]

/-- `ThresholdDetector.identify_threshold_exceedances` (exception-free
path): fold the severity loop over the fixed most-to-least severe level
list, starting from an empty result map (association list in insertion
order, as a Python dict preserves it). -/
def identifyThresholdExceedances {m n : ℕ} (T : Thresholds) (p : String)
    (conc : Fin m → Fin n → ℚ) : List (String × CellSet m n) :=
  severityLevels.foldl (identifyStep (pollutantThresholds T p) conc) []

/-- Mask of a level, empty when the level is unconfigured. -/
def maskOpt {m n : ℕ} (pmap : String → Option ℚ) (conc : Fin m → Fin n → ℚ)
    (l : String) : CellSet m n :=
  match pmap l with
  | some t => exceedanceMask conc t
  | none => ∅

/-- Union of the masks of a list of levels. -/
def maskUnion {m n : ℕ} (pmap : String → Option ℚ) (conc : Fin m → Fin n → ℚ) :
    List String → CellSet m n
  | [] => ∅
  | l :: ls => maskOpt pmap conc l ∪ maskUnion pmap conc ls

/-- Reference recursion equivalent to the severity fold: process the
remaining levels given the set of cells already claimed by more severe
levels. -/
def buildFrom {m n : ℕ} (pmap : String → Option ℚ) (conc : Fin m → Fin n → ℚ) :
    List String → CellSet m n → List (String × CellSet m n)
  | [], _ => []
  | l :: ls, claimed =>
      match pmap l with
      | none => buildFrom pmap conc ls claimed
      | some t => (l, exceedanceMask conc t \ claimed) ::
          buildFrom pmap conc ls (claimed ∪ exceedanceMask conc t)

lemma foldr_union_init {m n : ℕ} (acc : List (String × CellSet m n))
    (i : CellSet m n) :
    acc.foldr (fun e a => e.2 ∪ a) i = unionSets acc ∪ i := by
  induction acc with
  | nil => simp [unionSets]
  | cons e rest ih => simp [unionSets, ih, Finset.union_assoc]

lemma unionSets_append_singleton {m n : ℕ} (acc : List (String × CellSet m n))
    (l : String) (s : CellSet m n) :
    unionSets (acc ++ [(l, s)]) = unionSets acc ∪ s := by
  show (acc ++ [(l, s)]).foldr (fun e a => e.2 ∪ a) ∅ = _
  rw [List.foldr_append]
  simp only [List.foldr_cons, List.foldr_nil]
  rw [foldr_union_init]
  simp

lemma foldl_sdiff_eq {m n : ℕ} (result : List (String × CellSet m n)) :
    ∀ mask : CellSet m n,
      result.foldl (fun g e => g \ e.2) mask = mask \ unionSets result := by
  induction result with
  | nil => intro mask; simp [unionSets]
  | cons e rest ih =>
      intro mask
      simp only [List.foldl_cons]
      rw [ih]
      show (mask \ e.2) \ unionSets rest = mask \ unionSets (e :: rest)
      have : unionSets (e :: rest) = e.2 ∪ unionSets rest := rfl
      rw [this]
      ext x
      simp only [Finset.mem_sdiff, Finset.mem_union]
      tauto

lemma foldl_identifyStep_eq {m n : ℕ} (pmap : String → Option ℚ)
    (conc : Fin m → Fin n → ℚ) :
    ∀ (L : List String) (acc : List (String × CellSet m n)),
      L.foldl (identifyStep pmap conc) acc =
        acc ++ buildFrom pmap conc L (unionSets acc) := by
  intro L
  induction L with
  | nil => intro acc; simp [buildFrom]
  | cons l ls ih =>
      intro acc
      simp only [List.foldl_cons]
      rw [ih]
      cases hp : pmap l with
      | none => simp only [identifyStep, buildFrom, hp]
      | some t =>
          simp only [identifyStep, buildFrom, hp]
          by_cases hm : exceedanceMask conc t = (∅ : CellSet m n)
          · rw [hm]
            simp [unionSets_append_singleton, Finset.empty_sdiff]
          · simp only [if_neg hm]
            rw [foldl_sdiff_eq]
            rw [unionSets_append_singleton, Finset.union_sdiff_self_eq_union]
            simp

lemma identify_eq_buildFrom {m n : ℕ} (T : Thresholds) (p : String)
    (conc : Fin m → Fin n → ℚ) :
    identifyThresholdExceedances T p conc =
      buildFrom (pollutantThresholds T p) conc severityLevels ∅ := by
  unfold identifyThresholdExceedances
  rw [foldl_identifyStep_eq]
  simp [unionSets]

lemma buildFrom_mem_decomp {m n : ℕ} {pmap : String → Option ℚ}
    {conc : Fin m → Fin n → ℚ} :
    ∀ (L : List String) (claimed : CellSet m n) (l : String) (s : CellSet m n),
      (l, s) ∈ buildFrom pmap conc L claimed →
      ∃ t L1 L2, pmap l = some t ∧ L = L1 ++ l :: L2 ∧
        s = exceedanceMask conc t \ (claimed ∪ maskUnion pmap conc L1) := by
  intro L
  induction L with
  | nil => intro claimed l s h; simp [buildFrom] at h
  | cons l0 ls ih =>
      intro claimed l s h
      simp only [buildFrom] at h
      cases hp : pmap l0 with
      | none =>
          rw [hp] at h
          obtain ⟨t, L1, L2, hpl, hL, hs⟩ := ih claimed l s h
          refine ⟨t, l0 :: L1, L2, hpl, by rw [hL, List.cons_append], ?_⟩
          rw [hs]
          have : maskUnion pmap conc (l0 :: L1) =
              maskOpt pmap conc l0 ∪ maskUnion pmap conc L1 := rfl
          rw [this]
          simp [maskOpt, hp]
      | some t0 =>
          rw [hp] at h
          rcases List.mem_cons.mp h with heq | htail
          · obtain ⟨he1, he2⟩ := Prod.mk.injEq .. ▸ heq
            subst he1
            refine ⟨t0, [], ls, hp, rfl, ?_⟩
            rw [he2]
            simp [maskUnion]
          · obtain ⟨t, L1, L2, hpl, hL, hs⟩ :=
              ih (claimed ∪ exceedanceMask conc t0) l s htail
            refine ⟨t, l0 :: L1, L2, hpl, by rw [hL, List.cons_append], ?_⟩
            rw [hs]
            have : maskUnion pmap conc (l0 :: L1) =
                maskOpt pmap conc l0 ∪ maskUnion pmap conc L1 := rfl
            rw [this]
            simp [maskOpt, hp, Finset.union_assoc]

lemma buildFrom_mem_of_configured {m n : ℕ} {pmap : String → Option ℚ}
    {conc : Fin m → Fin n → ℚ} :
    ∀ (L : List String) (claimed : CellSet m n) (l : String),
      l ∈ L → (pmap l).isSome →
      ∃ s, (l, s) ∈ buildFrom pmap conc L claimed := by
  intro L
  induction L with
  | nil => intro claimed l hl; simp at hl
  | cons l0 ls ih =>
      intro claimed l hl hc
      by_cases he : l = l0
      · subst he
        cases hp : pmap l with
        | none => rw [hp] at hc; simp at hc
        | some t =>
            refine ⟨exceedanceMask conc t \ claimed, ?_⟩
            simp only [buildFrom]
            rw [hp]
            exact List.mem_cons_self _ _
      · have hl2 : l ∈ ls := by
          rcases List.mem_cons.mp hl with h | h
          · exact absurd h he
          · exact h
        cases hp : pmap l0 with
        | none =>
            obtain ⟨s, hs⟩ := ih claimed l hl2 hc
            refine ⟨s, ?_⟩
            simp only [buildFrom]
            rw [hp]
            exact hs
        | some t0 =>
            obtain ⟨s, hs⟩ := ih (claimed ∪ exceedanceMask conc t0) l hl2 hc
            refine ⟨s, ?_⟩
            simp only [buildFrom]
            rw [hp]
            exact List.mem_cons_of_mem _ hs

lemma buildFrom_disjoint_claimed {m n : ℕ} {pmap : String → Option ℚ}
    {conc : Fin m → Fin n → ℚ} (L : List String) (claimed : CellSet m n)
    (l : String) (s : CellSet m n)
    (h : (l, s) ∈ buildFrom pmap conc L claimed) : Disjoint s claimed := by
  obtain ⟨t, L1, L2, _, _, hs⟩ := buildFrom_mem_decomp L claimed l s h
  rw [hs]
  exact Finset.sdiff_disjoint.mono_right Finset.subset_union_left

lemma buildFrom_pairwise_disjoint {m n : ℕ} {pmap : String → Option ℚ}
    {conc : Fin m → Fin n → ℚ} :
    ∀ (L : List String) (claimed : CellSet m n) (l1 : String) (s1 : CellSet m n)
      (l2 : String) (s2 : CellSet m n),
      (l1, s1) ∈ buildFrom pmap conc L claimed →
      (l2, s2) ∈ buildFrom pmap conc L claimed → l1 ≠ l2 → Disjoint s1 s2 := by
  intro L
  induction L with
  | nil => intro claimed l1 s1 l2 s2 h1; simp [buildFrom] at h1
  | cons l0 ls ih =>
      intro claimed l1 s1 l2 s2 h1 h2 hne
      simp only [buildFrom] at h1 h2
      cases hp : pmap l0 with
      | none =>
          rw [hp] at h1 h2
          exact ih claimed l1 s1 l2 s2 h1 h2 hne
      | some t =>
          rw [hp] at h1 h2
          rcases List.mem_cons.mp h1 with he1 | ht1 <;>
            rcases List.mem_cons.mp h2 with he2 | ht2
          · injection he1 with ha1 hb1
            injection he2 with ha2 hb2
            exact absurd (ha1.trans ha2.symm) hne
          · injection he1 with ha1 hb1
            have hd2 := buildFrom_disjoint_claimed ls
              (claimed ∪ exceedanceMask conc t) l2 s2 ht2
            have hs1 : s1 ⊆ exceedanceMask conc t := by
              rw [hb1]
              exact Finset.sdiff_subset
            exact ((hd2.mono_right
              (hs1.trans Finset.subset_union_right))).symm
          · injection he2 with ha2 hb2
            have hd1 := buildFrom_disjoint_claimed ls
              (claimed ∪ exceedanceMask conc t) l1 s1 ht1
            have hs2 : s2 ⊆ exceedanceMask conc t := by
              rw [hb2]
              exact Finset.sdiff_subset
            exact hd1.mono_right (hs2.trans Finset.subset_union_right)
          · exact ih (claimed ∪ exceedanceMask conc t) l1 s1 l2 s2 ht1 ht2 hne

/-- Level `a` is strictly more severe than level `b`: both are severity
levels and `a` occurs strictly earlier in the most-to-least severe
processing order. -/
def moreSevere (a b : String) : Prop :=
  a ∈ severityLevels ∧ b ∈ severityLevels ∧
    severityLevels.indexOf a < severityLevels.indexOf b

lemma indexOf_append_cons (a : String) (L1 L2 : List String) (h : a ∉ L1) :
    (L1 ++ a :: L2).indexOf a = L1.length := by
  induction L1 with
  | nil => simp
  | cons x L1 ih =>
      have hxa : (x == a) = false := by
        simp only [beq_eq_false_iff_ne]
        intro he
        exact h (by rw [he]; exact List.mem_cons_self a L1)
      simp only [List.cons_append, List.indexOf_cons, hxa, cond_false]
      rw [ih (fun hm => h (List.mem_cons_of_mem x hm))]
      simp

lemma mem_left_of_indexOf_lt (b a : String) (L1 L2 : List String)
    (hb : b ∈ L1 ++ a :: L2)
    (hlt : (L1 ++ a :: L2).indexOf b < L1.length) : b ∈ L1 := by
  induction L1 with
  | nil => simp at hlt
  | cons x L1 ih =>
      by_cases hbx : b = x
      · exact hbx ▸ List.mem_cons_self x L1
      · have hx : (x == b) = false := by
          simp only [beq_eq_false_iff_ne]
          exact Ne.symm hbx
        rw [List.cons_append, List.indexOf_cons, hx] at hlt
        simp only [cond_false, List.length_cons] at hlt
        have hb1 : b ∈ x :: (L1 ++ a :: L2) := by
          rw [← List.cons_append]
          exact hb
        have hb2 : b ∈ L1 ++ a :: L2 := by
          rcases List.mem_cons.mp hb1 with h | h
          · exact absurd h hbx
          · exact h
        exact List.mem_cons_of_mem x (ih hb2 (by omega))

lemma maskOpt_subset_maskUnion {m n : ℕ} (pmap : String → Option ℚ)
    (conc : Fin m → Fin n → ℚ) (l : String) :
    ∀ L1 : List String, l ∈ L1 →
      maskOpt pmap conc l ⊆ maskUnion pmap conc L1 := by
  intro L1
  induction L1 with
  | nil => intro h; simp at h
  | cons x L ih =>
      intro hl
      have hstep : maskUnion pmap conc (x :: L) =
          maskOpt pmap conc x ∪ maskUnion pmap conc L := rfl
      rcases List.mem_cons.mp hl with he | hmm
      · subst he
        rw [hstep]
        exact Finset.subset_union_left
      · rw [hstep]
        exact (ih hmm).trans Finset.subset_union_right

/-- C1: the severity layers returned by `identify_threshold_exceedances`
are pairwise disjoint across severity levels, and every cell of a layer
exceeds that layer's threshold while exceeding the threshold of no
strictly more severe configured level — i.e. each cell appears only at
the most severe level it qualifies for. -/
theorem exceedance_layers_disjoint_most_severe {m n : ℕ} (T : Thresholds)
    (p : String) (conc : Fin m → Fin n → ℚ) :
    (∀ l1 s1 l2 s2,
        (l1, s1) ∈ identifyThresholdExceedances T p conc →
        (l2, s2) ∈ identifyThresholdExceedances T p conc →
        l1 ≠ l2 → Disjoint s1 s2) ∧
    (∀ l s c, (l, s) ∈ identifyThresholdExceedances T p conc → c ∈ s →
        ∃ t, pollutantThresholds T p l = some t ∧ t < conc c.1 c.2 ∧
          ∀ l2 t2, moreSevere l2 l →
            pollutantThresholds T p l2 = some t2 → ¬ t2 < conc c.1 c.2) := by
  constructor
  · intro l1 s1 l2 s2 h1 h2 hne
    rw [identify_eq_buildFrom] at h1 h2
    exact buildFrom_pairwise_disjoint _ _ _ _ _ _ h1 h2 hne
  · intro l s c hmem hc
    rw [identify_eq_buildFrom] at hmem
    obtain ⟨t, L1, L2, hpl, hL, hs⟩ :=
      buildFrom_mem_decomp severityLevels ∅ l s hmem
    refine ⟨t, hpl, ?_, ?_⟩
    · rw [hs] at hc
      have := (Finset.mem_sdiff.mp hc).1
      simpa [exceedanceMask] using this
    · intro l2 t2 hms hpl2 hlt
      rw [hs] at hc
      have hnotin := (Finset.mem_sdiff.mp hc).2
      have hnd : severityLevels.Nodup := by decide
      have hnd2 : (L1 ++ l :: L2).Nodup := hL ▸ hnd
      have hlnotL1 : l ∉ L1 := by
        intro hmem2
        obtain ⟨-, -, hdisj⟩ := List.nodup_append.mp hnd2
        exact hdisj hmem2 (List.mem_cons_self l L2)
      obtain ⟨hl2mem, hlmem, hlt2⟩ := hms
      have hidx : severityLevels.indexOf l = L1.length := by
        rw [hL]
        exact indexOf_append_cons l L1 L2 hlnotL1
      rw [hidx, hL] at hlt2
      have hl2L1 : l2 ∈ L1 :=
        mem_left_of_indexOf_lt l2 l L1 L2 (hL ▸ hl2mem) hlt2
      have hcmask : c ∈ maskOpt (pollutantThresholds T p) conc l2 := by
        simp [maskOpt, hpl2, exceedanceMask, hlt]
      have hcunion : c ∈ maskUnion (pollutantThresholds T p) conc L1 :=
        maskOpt_subset_maskUnion (pollutantThresholds T p) conc l2 L1 hl2L1
          hcmask
      exact hnotin (Finset.mem_union_right _ hcunion)

/-- C6: the result of `identify_threshold_exceedances` contains an entry
(possibly with an empty polygon list) for every severity level in the
requested most-to-least severe list that is configured for the
pollutant; it never omits a key for such a level. -/
theorem exceedance_entry_for_every_configured_level {m n : ℕ}
    (T : Thresholds) (p : String) (conc : Fin m → Fin n → ℚ) (l : String)
    (hl : l ∈ severityLevels)
    (hc : (pollutantThresholds T p l).isSome) :
    ∃ s, (l, s) ∈ identifyThresholdExceedances T p conc := by
  rw [identify_eq_buildFrom]
  exact buildFrom_mem_of_configured severityLevels ∅ l hl hc

/-- Custom integer-valued threshold table used for concrete witness
runs (the detector accepts any configured table via the `thresholds`
config key). -/
def sampleThresholds : Thresholds := fun p =>
  if p = "pm25" then
    some (fun l =>
      if l = "moderate" then some 100
      else if l = "unhealthy_sensitive" then some 200
      else if l = "unhealthy" then some 300
      else if l = "very_unhealthy" then some 400
      else if l = "hazardous" then some 500
      else none)
  else none

/-- Constant 1×1 concentration grid used for witness runs. -/
def concW : Fin 1 → Fin 1 → ℚ := fun _ _ => 350

/-- Witness for C1 at a concrete run: concentration 350 exceeds the
moderate, sensitive and unhealthy thresholds but lands only in the
unhealthy layer (its most severe qualifying level); the moderate layer
is empty and disjoint from it. -/
theorem exceedance_layers_witness :
    (("unhealthy", (Finset.univ : CellSet 1 1)) ∈
        identifyThresholdExceedances sampleThresholds "pm25" concW) ∧
    (("moderate", (∅ : CellSet 1 1)) ∈
        identifyThresholdExceedances sampleThresholds "pm25" concW) ∧
    Disjoint (Finset.univ : CellSet 1 1) (∅ : CellSet 1 1) ∧
    (∃ t, pollutantThresholds sampleThresholds "pm25" "unhealthy" = some t ∧
        t < concW 0 0 ∧
        ∀ l2 t2, moreSevere l2 "unhealthy" →
          pollutantThresholds sampleThresholds "pm25" l2 = some t2 →
          ¬ t2 < concW 0 0) := by
  have h1 : ("unhealthy", (Finset.univ : CellSet 1 1)) ∈
      identifyThresholdExceedances sampleThresholds "pm25" concW := by decide
  have h2 : ("moderate", (∅ : CellSet 1 1)) ∈
      identifyThresholdExceedances sampleThresholds "pm25" concW := by decide
  refine ⟨h1, h2, ?_, ?_⟩
  · exact (exceedance_layers_disjoint_most_severe sampleThresholds "pm25"
      concW).1 _ _ _ _ h1 h2 (by decide)
  · exact (exceedance_layers_disjoint_most_severe sampleThresholds "pm25"
      concW).2 "unhealthy" Finset.univ (0, 0) h1 (Finset.mem_univ _)

/-- Witness for C6 at a concrete run: the configured level `moderate`
receives an entry. -/
theorem exceedance_entry_witness :
    ("moderate" ∈ severityLevels) ∧
    (pollutantThresholds sampleThresholds "pm25" "moderate").isSome ∧
    ∃ s, ("moderate", s) ∈
      identifyThresholdExceedances sampleThresholds "pm25" concW :=
  ⟨by decide, by decide,
    exceedance_entry_for_every_configured_level sampleThresholds "pm25" concW
      "moderate" (by decide) (by decide)⟩

/-- Fault injection for the exception paths of
`identify_threshold_exceedances`: `detectFault` makes
`detect_exceedances` raise at a level, `vectFault` makes the raster
vectorization inside `create_exceedance_polygons` raise at a level, and
`overlayFault` makes a `gpd.overlay` difference call raise while
processing a level. -/
structure FaultModel where
  detectFault : String → Bool
  vectFault : String → Bool
  overlayFault : String → Bool

/-- `create_exceedance_polygons` catches every exception of its own body
and returns an empty GeoDataFrame, so a vectorization fault yields an
empty polygon set instead of propagating. -/
def createExceedancePolygonsE {m n : ℕ} (fm : FaultModel) (level : String)
    (mask : CellSet m n) : CellSet m n :=
  if fm.vectFault level then ∅ else mask

/-- One severity-loop iteration with fault injection: a
`detect_exceedances` exception propagates (that function re-raises), a
vectorization exception is swallowed into an empty layer, and an
`overlay` exception propagates when a difference call actually runs
(non-empty current layer and some non-empty prior layer). -/
def identifyStepE {m n : ℕ} (fm : FaultModel) (pmap : String → Option ℚ)
    (conc : Fin m → Fin n → ℚ) (result : List (String × CellSet m n))
    (level : String) : Except String (List (String × CellSet m n)) :=
  match pmap level with
  | none => .ok result
  | some t =>
      if fm.detectFault level then .error "detect" else
      if createExceedancePolygonsE fm level (exceedanceMask conc t) = ∅ then
        .ok (result ++ [(level, (∅ : CellSet m n))])
      else if fm.overlayFault level ∧ result.any (fun e => e.2 ≠ ∅) then
        .error "overlay"
      else
        .ok (result ++ [(level, result.foldl (fun g e => g \ e.2)
          (createExceedancePolygonsE fm level (exceedanceMask conc t)))])

/-- `identify_threshold_exceedances` under fault injection: the whole
severity loop runs inside one `try`; any propagating exception is caught
by the final handler, which returns an empty dict. -/
def identifyThresholdExceedancesE {m n : ℕ} (fm : FaultModel) (T : Thresholds)
    (p : String) (conc : Fin m → Fin n → ℚ) : List (String × CellSet m n) :=
  match severityLevels.foldlM
      (identifyStepE fm (pollutantThresholds T p) conc) [] with
  | .ok r => r
  | .error _ => []

lemma foldlM_error_of_detect_fault {m n : ℕ} {fm : FaultModel}
    {pmap : String → Option ℚ} {conc : Fin m → Fin n → ℚ} :
    ∀ (L : List String) (acc : List (String × CellSet m n)) (l : String),
      l ∈ L → (pmap l).isSome → fm.detectFault l = true →
      ∃ e, L.foldlM (identifyStepE fm pmap conc) acc = .error e := by
  intro L
  induction L with
  | nil => intro acc l hl; simp at hl
  | cons l0 ls ih =>
      intro acc l hl hc hdf
      rcases List.mem_cons.mp hl with he | hmem
      · subst he
        cases hp : pmap l with
        | none => rw [hp] at hc; simp at hc
        | some t =>
            refine ⟨"detect", ?_⟩
            rw [List.foldlM_cons]
            have hstep : identifyStepE fm pmap conc acc l = .error "detect" := by
              simp only [identifyStepE]
              rw [hp]
              simp [hdf]
            rw [hstep]
            rfl
      · cases hstep : identifyStepE fm pmap conc acc l0 with
        | error e =>
            refine ⟨e, ?_⟩
            rw [List.foldlM_cons, hstep]
            rfl
        | ok acc2 =>
            obtain ⟨e, he⟩ := ih acc2 l hmem hc hdf
            refine ⟨e, ?_⟩
            rw [List.foldlM_cons, hstep]
            simpa using he

lemma foldlM_ok_of_no_faults {m n : ℕ} {fm : FaultModel}
    {pmap : String → Option ℚ} {conc : Fin m → Fin n → ℚ}
    (hdf : ∀ l, fm.detectFault l = false)
    (hof : ∀ l, fm.overlayFault l = false) :
    ∀ (L : List String) (acc : List (String × CellSet m n)),
      ∃ ext, L.foldlM (identifyStepE fm pmap conc) acc = .ok (acc ++ ext) ∧
        ∀ l ∈ L, (pmap l).isSome → ∃ s, (l, s) ∈ acc ++ ext := by
  intro L
  induction L with
  | nil =>
      intro acc
      refine ⟨[], by simp; rfl, ?_⟩
      intro l hl
      simp at hl
  | cons l0 ls ih =>
      intro acc
      cases hp : pmap l0 with
      | none =>
          obtain ⟨ext, hok, hmem⟩ := ih acc
          refine ⟨ext, ?_, ?_⟩
          · rw [List.foldlM_cons]
            have hstep : identifyStepE fm pmap conc acc l0 = .ok acc := by
              simp only [identifyStepE]
              rw [hp]
            rw [hstep]
            simpa using hok
          · intro l hl hc
            rcases List.mem_cons.mp hl with he | hmem2
            · subst he; rw [hp] at hc; simp at hc
            · exact hmem l hmem2 hc
      | some t =>
          have hcases : ∃ s0, identifyStepE fm pmap conc acc l0 =
              .ok (acc ++ [(l0, s0)]) := by
            simp only [identifyStepE]
            rw [hp]
            simp only [hdf l0, Bool.false_eq_true, if_false]
            by_cases hv :
                createExceedancePolygonsE fm l0 (exceedanceMask conc t) =
                  (∅ : CellSet m n)
            · exact ⟨∅, by rw [if_pos hv]⟩
            · rw [if_neg hv]
              rw [if_neg (by simp [hof l0])]
              exact ⟨_, rfl⟩
          obtain ⟨s0, hstep⟩ := hcases
          obtain ⟨ext, hok, hmem⟩ := ih (acc ++ [(l0, s0)])
          refine ⟨[(l0, s0)] ++ ext, ?_, ?_⟩
          · rw [List.foldlM_cons, hstep]
            simpa [List.append_assoc] using hok
          · intro l hl hc
            rcases List.mem_cons.mp hl with he | hmem2
            · subst he
              exact ⟨s0, by simp⟩
            · obtain ⟨s, hs⟩ := hmem l hmem2 hc
              exact ⟨s, by simpa [List.append_assoc] using hs⟩

/-- C9 (amended): any exception escaping the severity-loop body of
`identify_threshold_exceedances` — in particular a `detect_exceedances`
failure at any configured level, and likewise an overlay failure — is
caught by the final handler and the function returns an empty map; but a
vectorization failure is swallowed inside `create_exceedance_polygons`
and merely yields an empty polygon list for that level, so with only
vectorization faults the returned map still has an entry for every
configured severity level. -/
theorem identify_error_swallowing :
    (∀ (m n : ℕ) (fm : FaultModel) (T : Thresholds) (p : String)
        (conc : Fin m → Fin n → ℚ) (e : String),
        severityLevels.foldlM
            (identifyStepE fm (pollutantThresholds T p) conc)
            ([] : List (String × CellSet m n)) = .error e →
        identifyThresholdExceedancesE fm T p conc = []) ∧
    (∀ (m n : ℕ) (fm : FaultModel) (T : Thresholds) (p : String)
        (conc : Fin m → Fin n → ℚ) (l : String),
        l ∈ severityLevels → (pollutantThresholds T p l).isSome →
        fm.detectFault l = true →
        identifyThresholdExceedancesE fm T p conc = []) ∧
    (∀ (m n : ℕ) (fm : FaultModel) (T : Thresholds) (p : String)
        (conc : Fin m → Fin n → ℚ),
        (∀ l, fm.detectFault l = false) → (∀ l, fm.overlayFault l = false) →
        ∀ l, l ∈ severityLevels → (pollutantThresholds T p l).isSome →
        ∃ s, (l, s) ∈ identifyThresholdExceedancesE fm T p conc) := by
  refine ⟨?_, ?_, ?_⟩
  · intro m n fm T p conc e he
    unfold identifyThresholdExceedancesE
    rw [he]
  · intro m n fm T p conc l hl hc hdf
    obtain ⟨e, he⟩ := foldlM_error_of_detect_fault severityLevels [] l hl hc hdf
    unfold identifyThresholdExceedancesE
    rw [he]
  · intro m n fm T p conc hdf hof l hl hc
    obtain ⟨ext, hok, hmem⟩ := foldlM_ok_of_no_faults hdf hof severityLevels []
    obtain ⟨s, hs⟩ := hmem l hl hc
    refine ⟨s, ?_⟩
    unfold identifyThresholdExceedancesE
    rw [hok]
    simpa using hs

/-- Fault model that makes only the vectorization step raise, at the
hazardous level. -/
def fmVect : FaultModel :=
  ⟨fun _ => false, fun l => l == "hazardous", fun _ => false⟩

/-- Constant 1×1 grid exceeding every sample threshold. -/
def concW2 : Fin 1 → Fin 1 → ℚ := fun _ _ => 600

/-- Counterexample to C9 as stated: at a concrete run where the mask
vectorization raises (at the hazardous level, whose mask is non-empty),
`identify_threshold_exceedances` does not return an empty map — the
failure is swallowed one level down and the other severity entries are
still produced. -/
theorem identify_vect_fault_counterexample :
    fmVect.vectFault "hazardous" = true ∧
    identifyThresholdExceedancesE fmVect sampleThresholds "pm25" concW2 ≠
      ([] : List (String × CellSet 1 1)) := by
  constructor
  · decide
  · decide

/-- Witness for the amended C9: a detect-step fault at the hazardous
level makes the whole function return the empty map, and with a
vectorization-only fault every configured level still has an entry. -/
theorem identify_error_swallowing_witness :
    ("hazardous" ∈ severityLevels) ∧
    (pollutantThresholds sampleThresholds "pm25" "hazardous").isSome ∧
    (FaultModel.mk (fun _ => true) (fun _ => false)
        (fun _ => false)).detectFault "hazardous" = true ∧
    identifyThresholdExceedancesE
      (FaultModel.mk (fun _ => true) (fun _ => false) (fun _ => false))
      sampleThresholds "pm25" concW2 = ([] : List (String × CellSet 1 1)) ∧
    ∃ s, ("hazardous", s) ∈
      identifyThresholdExceedancesE fmVect sampleThresholds "pm25" concW2 := by
  refine ⟨by decide, by decide, rfl, ?_, ?_⟩
  · exact identify_error_swallowing.2.1 1 1 _ sampleThresholds "pm25" concW2
      "hazardous" (by decide) (by decide) rfl
  · exact identify_error_swallowing.2.2 1 1 fmVect sampleThresholds "pm25"
      concW2 (fun _ => rfl) (fun _ => rfl) "hazardous" (by decide) (by decide)

end Threshold

namespace Alerts

/-- A monitoring station row: id and coordinates (`latitude`,
`longitude` float columns; the source tests them with Python truthiness,
so a zero coordinate counts as missing). -/
structure Station where
  id : ℕ
  lat : ℚ
  lon : ℚ
deriving DecidableEq

/-- A pollutant reading row: owning station, timestamp (hours), and the
per-pollutant value columns accessed by
`getattr(reading, pollutant_column, None)`. -/
structure Reading where
  stationId : ℕ
  timestamp : ℚ
  values : String → Option ℚ

/-- Database and clock environment of `AlertTrigger`: the station and
reading tables, the `ST_Intersects(station.location, wkt)` predicate of
the spatial query, and the current time in hours. -/
structure AlertsEnv where
  stations : List Station
  readings : List Reading
  intersects : String → Station → Bool
  now : ℚ

/-- The data `_create_alert` and `_get_current_max_value` inspect on an
exceedance geometry: its WKT serialization (`none` models the
`AttributeError`/`TypeError` raised by `.wkt` on an invalid geometry)
and its centroid as `(latitude, longitude)` (`none` models a centroid
failure). -/
structure Geom where
  wkt? : Option String
  centroid? : Option (ℚ × ℚ)

/-- Python truthiness check `station.latitude and station.longitude`
guarding coordinate use (0.0 is falsy). -/
def truthyCoords (s : Station) : Option (ℚ × ℚ) :=
  if s.lat ≠ 0 ∧ s.lon ≠ 0 then some (s.lat, s.lon) else none

/-- `AlertTrigger._get_current_max_value`: centroid first; stations by
spatial query when the geometry has a WKT, else all stations (the same
fallback covers a failing spatial query); `(0.0, center)` when no
station matches; otherwise average station coordinates when no centroid,
the maximum pollutant reading within the trailing 1-hour window, and as
a last resort the coordinates of the station holding that maximum
(station ids are compared with Python truthiness, so id 0 counts as
unset).  Returns `(max_value, center)` — both the `max_value > 0` and
the fallback branch return the same pair. -/
def getCurrentMaxValue (env : AlertsEnv) (pollutant : String) (area : Geom) :
    ℚ × Option (ℚ × ℚ) :=
  let center0 := area.centroid?
  let stations :=
    match area.wkt? with
    | some w => env.stations.filter (fun s => env.intersects w s)
    | none => env.stations
  if stations.isEmpty then (0, center0)
  else
    let center1 :=
      match center0 with
      | some c => some c
      | none =>
          let vcoords := stations.filterMap truthyCoords
          if vcoords.isEmpty then none
          else some (((vcoords.map Prod.fst).sum / vcoords.length : ℚ),
                     ((vcoords.map Prod.snd).sum / vcoords.length : ℚ))
    let ids := stations.map Station.id
    let recent := env.readings.filter
      (fun r => decide (r.stationId ∈ ids ∧ env.now - 1 ≤ r.timestamp))
    let acc := recent.foldl
      (fun (a : ℚ × Option ℕ) r =>
        match r.values pollutant.toLower with
        | some v => if a.1 < v then (v, some r.stationId) else a
        | none => a) (0, none)
    let center2 :=
      if acc.2.getD 0 ≠ 0 ∧ center1 = (none : Option (ℚ × ℚ)) then
        match env.stations.find? (fun s => s.id == acc.2.getD 0) with
        | some st => truthyCoords st
        | none => none
      else center1
    (acc.1, center2)

/-- Stored affected-area geometry of an Alert: either the WKT of the
exceedance polygon, or the fallback buffered circle around the center
coordinate. -/
inductive AreaRepr where
  | wktRepr (w : String)
  | bufferRepr (center : ℚ × ℚ) (radius : ℚ)
deriving DecidableEq

/-- The Alert row fields `_create_alert` computes (timestamps and the
message-template key, which depend only on the clock and configuration
strings, are omitted). -/
structure AlertRec where
  alertType : String
  severityLevel : ℕ
  affectedArea : AreaRepr
  centerLat : Option ℚ
  centerLon : Option ℚ
  impactRadiusKm : ℚ
  pollutant : String
  thresholdValue : ℚ
  currentValue : ℚ
  isActive : Bool
deriving DecidableEq

/-- `AlertTrigger._create_alert`: resolve current value and center, then
serialize the affected area — on a serialization failure substitute a
circle of radius 0.05 degrees buffered around the center when one
exists, else log and return `None`.  The impact radius is
`severity_level * 2.5` km. -/
def createAlert (env : AlertsEnv) (pollutant : String) (severityLevel : ℕ)
    (area : Geom) (thresholdValue : ℚ) : Option AlertRec :=
  let mv := getCurrentMaxValue env pollutant area
  let areaRepr? : Option AreaRepr :=
    match area.wkt? with
    | some w => some (.wktRepr w)
    | none =>
        match mv.2 with
        | some c => some (.bufferRepr c (1 / 20))
        | none => none
  match areaRepr? with
  | none => none
  | some ar =>
      some { alertType := "pollution", severityLevel := severityLevel,
             affectedArea := ar,
             centerLat := mv.2.map Prod.fst,
             centerLon := mv.2.map Prod.snd,
             impactRadiusKm := (severityLevel : ℚ) * (5 / 2),
             pollutant := pollutant, thresholdValue := thresholdValue,
             currentValue := mv.1, isActive := true }

/-- A user row as read by `_notify_affected_users`. -/
structure AUser where
  id : ℕ
  homeLocation : String
  workLocation : String
  isActive : Bool
deriving DecidableEq

/-- A notification stub as created by `_notify_affected_users`. -/
structure NotifRec where
  alertId : ℕ
  userId : ℕ
  message : String
  deliveryChannel : String
  locationType : String
deriving DecidableEq

/-- One insertion into the Python dict `{u.id: u for u in all_users}`:
an existing key keeps its position but takes the new value, a new key is
appended. -/
def dictInsert (acc : List AUser) (u : AUser) : List AUser :=
  if acc.any (fun v => v.id == u.id) then
    acc.map (fun v => if v.id == u.id then u else v)
  else acc ++ [u]

/-- `{u.id: u for u in all_users}.values()`: deduplicate by user id with
dict semantics. -/
def dedupById (l : List AUser) : List AUser := l.foldl dictInsert []

/-- Notification stub with `message=""` and `delivery_channel="pending"`
as created by `_notify_affected_users`. -/
def mkPendingNotif (alertId userId : ℕ) (tag : String) : NotifRec :=
  ⟨alertId, userId, "", "pending", tag⟩

/-- `AlertTrigger._notify_affected_users` for a found alert: users whose
home location intersects the affected area, users whose work location
does, concatenated and deduplicated by id; inactive users are skipped;
one pending notification per remaining user, tagged `home` when the user
is in the home query result and `work` otherwise. -/
def notifyAffectedUsers (alertId : ℕ) (alertArea : String)
    (users : List AUser) (stIntersects : String → String → Bool) :
    List NotifRec :=
  ((dedupById
      (users.filter (fun u => stIntersects u.homeLocation alertArea) ++
        users.filter (fun u => stIntersects u.workLocation alertArea))).filter
    AUser.isActive).map (fun u =>
      mkPendingNotif alertId u.id
        (if (users.filter
            (fun v => stIntersects v.homeLocation alertArea)).contains u
          then "home" else "work"))

/-- C5: when the affected-area polygon cannot be serialized, the Alert
is still created with a 0.05-degree buffered circle around the resolved
center coordinate; only when no center exists either does `_create_alert`
yield no Alert. -/
theorem create_alert_geometry_fallback (env : AlertsEnv) (pollutant : String)
    (sev : ℕ) (area : Geom) (tv : ℚ) (hwkt : area.wkt? = none) :
    (∀ c, (getCurrentMaxValue env pollutant area).2 = some c →
        ∃ a, createAlert env pollutant sev area tv = some a ∧
          a.affectedArea = AreaRepr.bufferRepr c (1 / 20)) ∧
    ((getCurrentMaxValue env pollutant area).2 = none →
        createAlert env pollutant sev area tv = none) := by
  constructor
  · intro c hc
    unfold createAlert
    simp only [hwkt, hc]
    exact ⟨_, rfl, rfl⟩
  · intro hc
    unfold createAlert
    simp only [hwkt, hc]

/-- Empty environment: no stations, no readings. -/
def envEmpty : AlertsEnv := ⟨[], [], fun _ _ => false, 0⟩

/-- Geometry whose WKT serialization fails but whose centroid resolves. -/
def areaCentroidOnly : Geom := ⟨none, some (10, 20)⟩

/-- Geometry with neither WKT serialization nor centroid. -/
def areaNoGeom : Geom := ⟨none, none⟩

/-- Witness for C5: with a failing serialization, a resolved center
yields a buffered-circle Alert, no center yields no Alert. -/
theorem create_alert_geometry_fallback_witness :
    (getCurrentMaxValue envEmpty "pm25" areaCentroidOnly).2 = some (10, 20) ∧
    (∃ a, createAlert envEmpty "pm25" 3 areaCentroidOnly 150 = some a ∧
        a.affectedArea = AreaRepr.bufferRepr (10, 20) (1 / 20)) ∧
    (getCurrentMaxValue envEmpty "pm25" areaNoGeom).2 = none ∧
    createAlert envEmpty "pm25" 3 areaNoGeom 150 = none := by
  have h1 : (getCurrentMaxValue envEmpty "pm25" areaCentroidOnly).2 =
      some (10, 20) := rfl
  have h2 : (getCurrentMaxValue envEmpty "pm25" areaNoGeom).2 = none := rfl
  exact ⟨h1,
    (create_alert_geometry_fallback envEmpty "pm25" 3 areaCentroidOnly 150
      rfl).1 (10, 20) h1,
    h2,
    (create_alert_geometry_fallback envEmpty "pm25" 3 areaNoGeom 150
      rfl).2 h2⟩

lemma foldl_max_none (key : String) :
    ∀ (l : List Reading) (a : ℚ × Option ℕ),
      (∀ r ∈ l, r.values key = none) →
      l.foldl (fun (a : ℚ × Option ℕ) r =>
        match r.values key with
        | some v => if a.1 < v then (v, some r.stationId) else a
        | none => a) a = a := by
  intro l
  induction l with
  | nil => intro a _; rfl
  | cons r rest ih =>
      intro a h
      rw [List.foldl_cons]
      have hr : r.values key = none := h r (List.mem_cons_self r rest)
      simp only [hr]
      exact ih a (fun r2 hr2 => h r2 (List.mem_cons_of_mem _ hr2))

/-- C10: when no monitoring station intersects the affected area, or no
reading for the pollutant exists within the trailing one-hour window
among the intersecting stations, `_get_current_max_value` returns a
current value of 0.0 (not an error), and `_create_alert` still creates
the Alert with `current_value = 0.0`, which is below any positive
triggering threshold. -/
theorem alert_created_with_zero_current_value (env : AlertsEnv)
    (pollutant : String) (sev : ℕ) (area : Geom) (tv : ℚ) (w : String)
    (hwkt : area.wkt? = some w)
    (hnone :
      (∀ s ∈ env.stations, env.intersects w s = false) ∨
      (∀ r ∈ env.readings,
        r.stationId ∈
          ((env.stations.filter (fun s => env.intersects w s)).map
            Station.id) →
        env.now - 1 ≤ r.timestamp → r.values pollutant.toLower = none)) :
    (getCurrentMaxValue env pollutant area).1 = 0 ∧
    ∃ a, createAlert env pollutant sev area tv = some a ∧
      a.currentValue = 0 ∧ (0 < tv → a.currentValue < tv) := by
  have hmax : (getCurrentMaxValue env pollutant area).1 = 0 := by
    unfold getCurrentMaxValue
    simp only [hwkt]
    by_cases hse :
        (env.stations.filter (fun s => env.intersects w s)).isEmpty
    · simp [hse]
    · rcases hnone with hs | hr
      · exfalso
        apply hse
        have : env.stations.filter (fun s => env.intersects w s) = [] := by
          rw [List.filter_eq_nil_iff]
          intro s hsmem
          simp [hs s hsmem]
        rw [this]
        rfl
      · simp only [hse, Bool.false_eq_true, if_false]
        rw [foldl_max_none]
        intro r hrmem
        have hmem2 := List.mem_filter.mp hrmem
        have hcond := of_decide_eq_true hmem2.2
        exact hr r hmem2.1 hcond.1 hcond.2
  refine ⟨hmax, ?_⟩
  unfold createAlert
  simp only [hwkt]
  refine ⟨_, rfl, ?_, ?_⟩
  · exact hmax
  · intro htv
    calc ({ alertType := "pollution", severityLevel := sev,
            affectedArea := AreaRepr.wktRepr w,
            centerLat := (getCurrentMaxValue env pollutant area).2.map
              Prod.fst,
            centerLon := (getCurrentMaxValue env pollutant area).2.map
              Prod.snd,
            impactRadiusKm := (sev : ℚ) * (5 / 2), pollutant := pollutant,
            thresholdValue := tv,
            currentValue := (getCurrentMaxValue env pollutant area).1,
            isActive := true } : AlertRec).currentValue
        = 0 := hmax
      _ < tv := htv

/-- Environment with one station that intersects nothing. -/
def envNoHit : AlertsEnv := ⟨[⟨1, 5, 6⟩], [], fun _ _ => false, 0⟩

/-- Serializable geometry used for the C10 witness. -/
def areaWkt : Geom := ⟨some "POLYGON", some (10, 20)⟩

/-- Witness for C10: no station intersects the area, yet the Alert is
created with current value 0, below the triggering threshold 150. -/
theorem alert_zero_current_value_witness :
    areaWkt.wkt? = some "POLYGON" ∧
    (∀ s ∈ envNoHit.stations, envNoHit.intersects "POLYGON" s = false) ∧
    (getCurrentMaxValue envNoHit "pm25" areaWkt).1 = 0 ∧
    ∃ a, createAlert envNoHit "pm25" 3 areaWkt 150 = some a ∧
      a.currentValue = 0 ∧ (0 < (150 : ℚ) → a.currentValue < 150) := by
  have hs : ∀ s ∈ envNoHit.stations, envNoHit.intersects "POLYGON" s = false :=
    fun s _ => rfl
  have := alert_created_with_zero_current_value envNoHit "pm25" 3 areaWkt 150
    "POLYGON" rfl (Or.inl hs)
  exact ⟨rfl, hs, this.1, this.2⟩

/-- Any two user rows with the same id coincide (primary-key
uniqueness, phrased on a list of rows). -/
def IdCoherent (l : List AUser) : Prop :=
  ∀ u ∈ l, ∀ v ∈ l, u.id = v.id → u = v

lemma idCoherent_of_nodup_ids (users : List AUser)
    (h : (users.map AUser.id).Nodup) : IdCoherent users :=
  fun _ hu _ hv he => List.inj_on_of_nodup_map h hu hv he

lemma idCoherent_sublist (users l : List AUser) (hco : IdCoherent users)
    (hsub : ∀ v ∈ l, v ∈ users) : IdCoherent l :=
  fun u hu v hv he => hco u (hsub u hu) v (hsub v hv) he

lemma mem_dictInsert (acc : List AUser) (u v : AUser)
    (h : v ∈ dictInsert acc u) : v ∈ acc ∨ v = u := by
  unfold dictInsert at h
  by_cases hc : acc.any (fun w => w.id == u.id)
  · rw [if_pos hc] at h
    obtain ⟨w, hw, hv⟩ := List.mem_map.mp h
    by_cases hq : (w.id == u.id) = true
    · rw [if_pos hq] at hv
      exact Or.inr hv.symm
    · rw [if_neg hq] at hv
      exact Or.inl (hv ▸ hw)
  · rw [if_neg hc] at h
    rcases List.mem_append.mp h with h2 | h2
    · exact Or.inl h2
    · exact Or.inr (List.mem_singleton.mp h2)

lemma foldl_dictInsert_subset :
    ∀ (l acc : List AUser) (v : AUser),
      v ∈ l.foldl dictInsert acc → v ∈ acc ∨ v ∈ l := by
  intro l
  induction l with
  | nil => intro acc v h; exact Or.inl h
  | cons u rest ih =>
      intro acc v h
      rw [List.foldl_cons] at h
      rcases ih (dictInsert acc u) v h with h1 | h2
      · rcases mem_dictInsert acc u v h1 with h3 | h3
        · exact Or.inl h3
        · exact Or.inr (h3 ▸ List.mem_cons_self u rest)
      · exact Or.inr (List.mem_cons_of_mem u h2)

lemma dictInsert_nodup_ids (acc : List AUser) (u : AUser)
    (h : (acc.map AUser.id).Nodup) :
    ((dictInsert acc u).map AUser.id).Nodup := by
  unfold dictInsert
  by_cases hc : acc.any (fun w => w.id == u.id)
  · rw [if_pos hc]
    have : (acc.map (fun v => if v.id == u.id then u else v)).map AUser.id =
        acc.map AUser.id := by
      rw [List.map_map]
      apply List.map_congr_left
      intro v _
      by_cases hq : (v.id == u.id) = true
      · simp only [Function.comp_apply, if_pos hq]
        exact (eq_of_beq hq).symm
      · simp only [Function.comp_apply, if_neg hq]
    rw [this]
    exact h
  · rw [if_neg hc]
    rw [List.map_append]
    have hu : u.id ∉ acc.map AUser.id := by
      intro hmem
      apply hc
      obtain ⟨w, hw, hwid⟩ := List.mem_map.mp hmem
      exact List.any_eq_true.mpr ⟨w, hw, by simp [hwid]⟩
    simp [List.nodup_append, h, hu]

lemma foldl_dictInsert_nodup_ids :
    ∀ (l acc : List AUser), (acc.map AUser.id).Nodup →
      ((l.foldl dictInsert acc).map AUser.id).Nodup := by
  intro l
  induction l with
  | nil => intro acc h; exact h
  | cons u rest ih =>
      intro acc h
      rw [List.foldl_cons]
      exact ih (dictInsert acc u) (dictInsert_nodup_ids acc u h)

lemma dictInsert_id_mem_of_mem (acc : List AUser) (u w0 : AUser)
    (h : w0 ∈ acc) : ∃ w1 ∈ dictInsert acc u, w1.id = w0.id := by
  unfold dictInsert
  by_cases hc : acc.any (fun w => w.id == u.id)
  · rw [if_pos hc]
    refine ⟨if w0.id == u.id then u else w0, List.mem_map_of_mem _ h, ?_⟩
    by_cases hq : (w0.id == u.id) = true
    · rw [if_pos hq]
      exact (eq_of_beq hq).symm
    · rw [if_neg hq]
  · rw [if_neg hc]
    exact ⟨w0, List.mem_append_left _ h, rfl⟩

lemma dictInsert_id_mem_self (acc : List AUser) (u : AUser) :
    ∃ w ∈ dictInsert acc u, w.id = u.id := by
  unfold dictInsert
  by_cases hc : acc.any (fun w => w.id == u.id)
  · rw [if_pos hc]
    obtain ⟨w0, hw0, hq⟩ := List.any_eq_true.mp hc
    refine ⟨u, List.mem_map.mpr ⟨w0, hw0, if_pos hq⟩, rfl⟩
  · rw [if_neg hc]
    exact ⟨u, List.mem_append_right _ (List.mem_singleton_self u), rfl⟩

lemma foldl_dictInsert_id_mem :
    ∀ (l acc : List AUser) (v : AUser),
      ((∃ w ∈ acc, w.id = v.id) ∨ v ∈ l) →
      ∃ w ∈ l.foldl dictInsert acc, w.id = v.id := by
  intro l
  induction l with
  | nil =>
      intro acc v h
      rcases h with h | h
      · exact h
      · simp at h
  | cons u rest ih =>
      intro acc v h
      rw [List.foldl_cons]
      apply ih (dictInsert acc u) v
      rcases h with ⟨w0, hw0, hid⟩ | h
      · obtain ⟨w1, hw1, hid1⟩ := dictInsert_id_mem_of_mem acc u w0 hw0
        exact Or.inl ⟨w1, hw1, hid1.trans hid⟩
      · rcases List.mem_cons.mp h with he | hm
        · obtain ⟨w, hw, hid⟩ := dictInsert_id_mem_self acc u
          exact Or.inl ⟨w, hw, he ▸ hid⟩
        · exact Or.inr hm

lemma dedup_subset (l : List AUser) (v : AUser) (h : v ∈ dedupById l) :
    v ∈ l := by
  rcases foldl_dictInsert_subset l [] v h with h2 | h2
  · simp at h2
  · exact h2

lemma dedup_nodup_ids (l : List AUser) :
    ((dedupById l).map AUser.id).Nodup :=
  foldl_dictInsert_nodup_ids l [] (by simp)

lemma dedup_mem (l : List AUser) (v : AUser) (hco : IdCoherent l)
    (h : v ∈ l) : v ∈ dedupById l := by
  obtain ⟨w, hw, hid⟩ := foldl_dictInsert_id_mem l [] v (Or.inr h)
  have hwl : w ∈ l := dedup_subset l w hw
  have : w = v := hco w hwl v h hid
  exact this ▸ hw

lemma filter_eq_singleton (users : List AUser) (p : AUser → Bool)
    (a : AUser) (hnd : users.Nodup) (ha : a ∈ users)
    (hp : ∀ u ∈ users, p u = true ↔ u = a) : users.filter p = [a] := by
  induction users with
  | nil => simp at ha
  | cons x rest ih =>
      have hxnotin : x ∉ rest := (List.nodup_cons.mp hnd).1
      have hndr : rest.Nodup := (List.nodup_cons.mp hnd).2
      by_cases hxa : x = a
      · subst hxa
        have hpx : p x = true := (hp x (List.mem_cons_self x rest)).mpr rfl
        rw [List.filter_cons_of_pos hpx]
        have hrest : rest.filter p = [] := by
          rw [List.filter_eq_nil_iff]
          intro u hu hpu
          exact hxnotin (((hp u (List.mem_cons_of_mem x hu)).mp hpu) ▸ hu)
        rw [hrest]
      · have hpx : ¬ p x = true :=
          fun h2 => hxa ((hp x (List.mem_cons_self x rest)).mp h2)
        rw [List.filter_cons_of_neg hpx]
        have ha2 : a ∈ rest := by
          rcases List.mem_cons.mp ha with he | hm
          · exact absurd he.symm hxa
          · exact hm
        exact ih hndr ha2 (fun u hu => hp u (List.mem_cons_of_mem x hu))

lemma notif_filter_nil (aid : ℕ) (tagf : AUser → String) (i : ℕ) :
    ∀ d : List AUser, i ∉ d.map AUser.id →
      ((d.filter AUser.isActive).map
        (fun v => mkPendingNotif aid v.id (tagf v))).filter
          (fun nr => nr.userId == i) = [] := by
  intro d
  induction d with
  | nil => intro _; rfl
  | cons x rest ih =>
      intro h
      have hxi : x.id ≠ i := by
        intro he
        exact h (he ▸ List.mem_map_of_mem AUser.id (List.mem_cons_self x rest))
      have hrest : i ∉ rest.map AUser.id := by
        intro hm
        rw [List.map_cons] at h
        exact h (List.mem_cons_of_mem _ hm)
      by_cases hact : x.isActive = true
      · rw [List.filter_cons_of_pos hact, List.map_cons,
          List.filter_cons_of_neg (by simp [mkPendingNotif, hxi])]
        exact ih hrest
      · rw [List.filter_cons_of_neg hact]
        exact ih hrest

lemma notif_filter_single (aid : ℕ) (tagf : AUser → String) :
    ∀ d : List AUser, (d.map AUser.id).Nodup →
      ∀ u ∈ d, u.isActive = true →
      ((d.filter AUser.isActive).map
        (fun v => mkPendingNotif aid v.id (tagf v))).filter
          (fun nr => nr.userId == u.id) =
        [mkPendingNotif aid u.id (tagf u)] := by
  intro d
  induction d with
  | nil => intro _ u hu; simp at hu
  | cons x rest ih =>
      intro hnd u hu hact
      rw [List.map_cons] at hnd
      have hxid : x.id ∉ rest.map AUser.id := (List.nodup_cons.mp hnd).1
      have hndr : (rest.map AUser.id).Nodup := (List.nodup_cons.mp hnd).2
      rcases List.mem_cons.mp hu with he | hm
      · subst he
        rw [List.filter_cons_of_pos hact, List.map_cons,
          List.filter_cons_of_pos (by simp [mkPendingNotif]),
          notif_filter_nil aid tagf u.id rest hxid]
      · have hxu : x.id ≠ u.id := by
          intro he
          exact hxid (he ▸ List.mem_map_of_mem AUser.id hm)
        by_cases hactx : x.isActive = true
        · rw [List.filter_cons_of_pos hactx, List.map_cons,
            List.filter_cons_of_neg (by simp [mkPendingNotif, hxu])]
          exact ih hndr u hm hact
        · rw [List.filter_cons_of_neg hactx]
          exact ih hndr u hm hact

/-- C4: fan-out correctness of `_notify_affected_users`.  First, when
the affected area intersects exactly active user A's home location and
active user B's work location (and no other user's locations, A and B
distinct), exactly two pending notifications with empty message are
created: one for A tagged `home` and one for B tagged `work`.  Second, a
user matching on both home and work receives exactly one notification,
tagged `home`.  Third, inactive users receive no notification. -/
theorem notify_fanout_correct :
    (∀ (aid : ℕ) (area : String) (users : List AUser)
        (inter : String → String → Bool) (A B : AUser),
        (users.map AUser.id).Nodup → A ∈ users → B ∈ users → A.id ≠ B.id →
        A.isActive = true → B.isActive = true →
        (∀ u ∈ users, inter u.homeLocation area = true ↔ u = A) →
        (∀ u ∈ users, inter u.workLocation area = true ↔ u = B) →
        notifyAffectedUsers aid area users inter =
          [mkPendingNotif aid A.id "home", mkPendingNotif aid B.id "work"]) ∧
    (∀ (aid : ℕ) (area : String) (users : List AUser)
        (inter : String → String → Bool) (u : AUser),
        (users.map AUser.id).Nodup → u ∈ users →
        inter u.homeLocation area = true → inter u.workLocation area = true →
        u.isActive = true →
        (notifyAffectedUsers aid area users inter).filter
            (fun nr => nr.userId == u.id) =
          [mkPendingNotif aid u.id "home"]) ∧
    (∀ (aid : ℕ) (area : String) (users : List AUser)
        (inter : String → String → Bool) (u : AUser) (nr : NotifRec),
        (users.map AUser.id).Nodup → u ∈ users → u.isActive = false →
        nr ∈ notifyAffectedUsers aid area users inter →
        nr.userId ≠ u.id) := by
  refine ⟨?_, ?_, ?_⟩
  · intro aid area users inter A B hnd hA hB hABid hAact hBact hHome hWork
    have hndu : users.Nodup := List.Nodup.of_map AUser.id hnd
    have hH : users.filter (fun u => inter u.homeLocation area) = [A] :=
      filter_eq_singleton users _ A hndu hA (fun u hu => hHome u hu)
    have hW : users.filter (fun u => inter u.workLocation area) = [B] :=
      filter_eq_singleton users _ B hndu hB (fun u hu => hWork u hu)
    have hANeB : A ≠ B := fun he => hABid (he ▸ rfl)
    unfold notifyAffectedUsers
    rw [hH, hW]
    have hb : (A.id == B.id) = false := by simp [hABid]
    have hdd : dedupById ([A] ++ [B]) = [A, B] := by
      show dictInsert (dictInsert [] A) B = [A, B]
      have h1 : dictInsert [] A = [A] := rfl
      rw [h1]
      unfold dictInsert
      rw [if_neg (by simp [hABid])]
      rfl
    rw [hdd]
    rw [show ([A, B].filter AUser.isActive) = [A, B] by
      simp [List.filter, hAact, hBact]]
    have hcA : ([A].contains A) = true := by simp
    have hcB : ([A].contains B) = false := by simp [hANeB.symm]
    simp [hcA, hcB, Ne.symm hANeB]
  · intro aid area users inter u hnd hu hhome hwork hact
    have hco : IdCoherent users := idCoherent_of_nodup_ids users hnd
    have huH : u ∈ users.filter (fun v => inter v.homeLocation area) :=
      List.mem_filter.mpr ⟨hu, hhome⟩
    have hsub : ∀ v ∈ users.filter (fun v => inter v.homeLocation area) ++
        users.filter (fun v => inter v.workLocation area), v ∈ users := by
      intro v hv
      rcases List.mem_append.mp hv with h | h
      · exact (List.mem_filter.mp h).1
      · exact (List.mem_filter.mp h).1
    have hcoHW := idCoherent_sublist users _ hco hsub
    have hud : u ∈ dedupById
        (users.filter (fun v => inter v.homeLocation area) ++
          users.filter (fun v => inter v.workLocation area)) :=
      dedup_mem _ u hcoHW (List.mem_append_left _ huH)
    have hnd2 := dedup_nodup_ids
      (users.filter (fun v => inter v.homeLocation area) ++
        users.filter (fun v => inter v.workLocation area))
    have hsingle := notif_filter_single aid
      (fun v => if (users.filter
          (fun v2 => inter v2.homeLocation area)).contains v
        then "home" else "work")
      (dedupById (users.filter (fun v => inter v.homeLocation area) ++
        users.filter (fun v => inter v.workLocation area)))
      hnd2 u hud hact
    have hcu : ((users.filter
        (fun v2 => inter v2.homeLocation area)).contains u) = true := by
      simp only [List.contains_eq_any_beq]
      exact List.any_eq_true.mpr ⟨u, huH, by simp⟩
    unfold notifyAffectedUsers
    rw [hsingle]
    simp [hcu, hu, hhome]
  · intro aid area users inter u nr hnd hu hinact hmemnotif
    intro heq
    unfold notifyAffectedUsers at hmemnotif
    obtain ⟨v, hv, hvn⟩ := List.mem_map.mp hmemnotif
    have hvfil := List.mem_filter.mp hv
    have hvd := hvfil.1
    have hvact : v.isActive = true := hvfil.2
    have hvHW := dedup_subset _ v hvd
    have hvusers : v ∈ users := by
      rcases List.mem_append.mp hvHW with h | h
      · exact (List.mem_filter.mp h).1
      · exact (List.mem_filter.mp h).1
    have hvid : v.id = u.id := by
      rw [← hvn] at heq
      simpa [mkPendingNotif] using heq
    have hco := idCoherent_of_nodup_ids users hnd
    have hveq : v = u := hco v hvusers u hu hvid
    rw [hveq, hinact] at hvact
    exact Bool.false_ne_true hvact

/-- Witness for C4 at a concrete input: two active users, the area
intersecting exactly the first user's home and the second user's work. -/
theorem notify_fanout_witness :
    (([AUser.mk 1 "hA" "wA" true, AUser.mk 2 "hB" "wB" true].map
        AUser.id).Nodup) ∧
    notifyAffectedUsers 7 "AREA"
        [AUser.mk 1 "hA" "wA" true, AUser.mk 2 "hB" "wB" true]
        (fun loc _ => loc == "hA" || loc == "wB") =
      [mkPendingNotif 7 1 "home", mkPendingNotif 7 2 "work"] := by
  refine ⟨by decide, ?_⟩
  exact notify_fanout_correct.1 7 "AREA"
    [AUser.mk 1 "hA" "wA" true, AUser.mk 2 "hB" "wB" true]
    (fun loc _ => loc == "hA" || loc == "wB")
    (AUser.mk 1 "hA" "wA" true) (AUser.mk 2 "hB" "wB" true)
    (by decide) (by decide) (by decide) (by decide) (by decide) (by decide)
    (by decide) (by decide)

end Alerts

namespace Dispersion

noncomputable section

/-- A concentration grid, idealised as a real-valued field over an
unbounded integer lattice (cell indices `(row, column)`); the claims
about dispersion explicitly ignore mass effects at the finite-grid
boundary, which this idealisation removes.  Floats are idealised as
exact reals. -/
def Grid : Type := ℤ × ℤ → ℝ

/-- Kernel radius of `scipy.ndimage.gaussian_filter1d` with the default
`truncate = 4.0`: `int(truncate * sigma + 0.5)` (for the nonnegative
sigmas produced by `1 + 0.2 * speed`, truncation equals floor). -/
def gRadius (sigma : ℝ) : ℤ := ⌊4 * sigma + 1 / 2⌋

/-- Unnormalised Gaussian kernel weight
`exp(-0.5 / sigma**2 * x**2)` of `_gaussian_kernel1d`. -/
def gWeight (sigma : ℝ) (t : ℤ) : ℝ :=
  Real.exp (-(t : ℝ) ^ 2 / (2 * sigma ^ 2))

/-- Normalisation constant: `phi_x.sum()`. -/
def gNorm (sigma : ℝ) : ℝ :=
  ∑ t in Finset.Icc (-gRadius sigma) (gRadius sigma), gWeight sigma t

/-- Normalised Gaussian kernel: `phi_x / phi_x.sum()`. -/
def gKernel (sigma : ℝ) (t : ℤ) : ℝ := gWeight sigma t / gNorm sigma

/-- One-dimensional Gaussian correlation along the row axis (axis 0 of
`gaussian_filter`). -/
def blurRow (sigma : ℝ) (g : Grid) : Grid := fun p =>
  ∑ t in Finset.Icc (-gRadius sigma) (gRadius sigma),
    gKernel sigma t * g (p.1 - t, p.2)

/-- One-dimensional Gaussian correlation along the column axis (axis 1
of `gaussian_filter`). -/
def blurCol (sigma : ℝ) (g : Grid) : Grid := fun p =>
  ∑ t in Finset.Icc (-gRadius sigma) (gRadius sigma),
    gKernel sigma t * g (p.1, p.2 - t)

/-- `scipy.ndimage.gaussian_filter`: the separable filter applies the
one-dimensional kernel along each axis in turn. -/
def gaussianFilter (sigma : ℝ) (g : Grid) : Grid :=
  blurCol sigma (blurRow sigma g)

/-- Python float `%`: result has the sign of the divisor,
`a - b * floor(a / b)`. -/
def pyMod (a b : ℝ) : ℝ := a - b * ⌊a / b⌋

/-- `radians((270 - direction) % 360)`: meteorological to mathematical
angle. -/
def dirRad (d : ℝ) : ℝ := Real.pi / 180 * pyMod (270 - d) 360

/-- `dx = speed * cos(direction_rad) * hours_per_step / 3.6`. -/
def windDx (speed d h : ℝ) : ℝ := speed * Real.cos (dirRad d) * h / 3.6

/-- `dy = speed * sin(direction_rad) * hours_per_step / 3.6`. -/
def windDy (speed d h : ℝ) : ℝ := speed * Real.sin (dirRad d) * h / 3.6

/-- `scipy.ndimage.shift(current, [dy, dx], order=1, mode="constant",
cval=0)` on the unbounded lattice: order-1 spline interpolation is
bilinear interpolation of the input at `(i - dy, j - dx)`. -/
def shiftLin (dy dx : ℝ) (g : Grid) : Grid := fun p =>
  (1 - ((p.1 : ℝ) - dy - ⌊(p.1 : ℝ) - dy⌋)) *
      ((1 - ((p.2 : ℝ) - dx - ⌊(p.2 : ℝ) - dx⌋)) *
        g (⌊(p.1 : ℝ) - dy⌋, ⌊(p.2 : ℝ) - dx⌋) +
      ((p.2 : ℝ) - dx - ⌊(p.2 : ℝ) - dx⌋) *
        g (⌊(p.1 : ℝ) - dy⌋, ⌊(p.2 : ℝ) - dx⌋ + 1)) +
    ((p.1 : ℝ) - dy - ⌊(p.1 : ℝ) - dy⌋) *
      ((1 - ((p.2 : ℝ) - dx - ⌊(p.2 : ℝ) - dx⌋)) *
        g (⌊(p.1 : ℝ) - dy⌋ + 1, ⌊(p.2 : ℝ) - dx⌋) +
      ((p.2 : ℝ) - dx - ⌊(p.2 : ℝ) - dx⌋) *
        g (⌊(p.1 : ℝ) - dy⌋ + 1, ⌊(p.2 : ℝ) - dx⌋ + 1))

/-- `decay_rate = 0.95`: 5 percent reduction per time step. -/
def decayRate : ℝ := 0.95

/-- One time step of `predict_dispersion`: advect by the wind vector,
diffuse with `sigma = 1 + 0.2 * speed`, decay by `decay_rate`. -/
def dispStep (h direction speed : ℝ) (g : Grid) : Grid := fun p =>
  decayRate * gaussianFilter (1 + 0.2 * speed)
    (shiftLin (windDy speed direction h) (windDx speed direction h) g) p

/-- The grid after `k` steps of the dispersion loop (`current` after
`k` iterations; index `i` of the loop uses `wind_directions[i]` and
`wind_speeds[i]`). -/
def gridAt (h : ℝ) (dirs speeds : List ℝ) (g0 : Grid) : ℕ → Grid
  | 0 => g0
  | k + 1 => dispStep h (dirs.getD k 0) (speeds.getD k 0)
      (gridAt h dirs speeds g0 k)

/-- `DispersionModel.predict_dispersion`: raises a ValueError when
either wind list is shorter than the configured number of time steps
(`len(wind_directions) < self.time_steps or
len(wind_speeds) < self.time_steps`); otherwise returns the list
`[initial, step 1, ..., step time_steps]`. -/
def predictDispersion (timeSteps : ℕ) (h : ℝ) (g0 : Grid)
    (dirs speeds : List ℝ) : Except String (List Grid) :=
  if dirs.length < timeSteps ∨ speeds.length < timeSteps then
    .error "Wind data must be provided for all time steps"
  else .ok ((List.range (timeSteps + 1)).map (gridAt h dirs speeds g0))

/-- Total mass of a grid: the sum of all cell values. -/
def mass (g : Grid) : ℝ := ∑ᶠ p, g p

end

lemma gRadius_nonneg (sigma : ℝ) (hs : 0 ≤ sigma) : 0 ≤ gRadius sigma := by
  unfold gRadius
  apply Int.le_floor.mpr
  push_cast
  linarith

lemma gNorm_pos (sigma : ℝ) (hs : 0 ≤ sigma) : 0 < gNorm sigma := by
  unfold gNorm
  apply Finset.sum_pos
  · intro t _
    exact Real.exp_pos _
  · exact ⟨0, Finset.mem_Icc.mpr
      ⟨neg_nonpos.mpr (gRadius_nonneg sigma hs), gRadius_nonneg sigma hs⟩⟩

lemma gKernel_sum (sigma : ℝ) (hs : 0 ≤ sigma) :
    ∑ t in Finset.Icc (-gRadius sigma) (gRadius sigma), gKernel sigma t = 1 := by
  unfold gKernel
  rw [← Finset.sum_div]
  exact div_self (ne_of_gt (gNorm_pos sigma hs))

lemma finsum_translate_row (g : ℤ × ℤ → ℝ) (t : ℤ) :
    ∑ᶠ p : ℤ × ℤ, g (p.1 - t, p.2) = ∑ᶠ p, g p := by
  apply finsum_comp (fun p : ℤ × ℤ => (p.1 - t, p.2))
  constructor
  · intro a b hab
    obtain ⟨h1, h2⟩ := Prod.ext_iff.mp hab
    simp only at h1 h2
    exact Prod.ext_iff.mpr ⟨by omega, h2⟩
  · intro q
    exact ⟨(q.1 + t, q.2), by simp⟩

lemma finsum_translate_col (g : ℤ × ℤ → ℝ) (t : ℤ) :
    ∑ᶠ p : ℤ × ℤ, g (p.1, p.2 - t) = ∑ᶠ p, g p := by
  apply finsum_comp (fun p : ℤ × ℤ => (p.1, p.2 - t))
  constructor
  · intro a b hab
    obtain ⟨h1, h2⟩ := Prod.ext_iff.mp hab
    simp only at h1 h2
    exact Prod.ext_iff.mpr ⟨h1, by omega⟩
  · intro q
    exact ⟨(q.1, q.2 + t), by simp⟩

lemma blurRow_support_subset (sigma : ℝ) (g : Grid)
    (hg : (Function.support g).Finite) :
    Function.support (blurRow sigma g) ⊆
      ↑(Finset.image (fun tq : ℤ × (ℤ × ℤ) => (tq.2.1 + tq.1, tq.2.2))
        ((Finset.Icc (-gRadius sigma) (gRadius sigma)) ×ˢ hg.toFinset)) := by
  intro p hp
  have hex : ∃ t ∈ Finset.Icc (-gRadius sigma) (gRadius sigma),
      gKernel sigma t * g (p.1 - t, p.2) ≠ 0 := by
    by_contra hall
    push_neg at hall
    exact hp (Finset.sum_eq_zero hall)
  obtain ⟨t, ht, hne⟩ := hex
  have hgne : g (p.1 - t, p.2) ≠ 0 := fun h0 => hne (by rw [h0, mul_zero])
  simp only [Finset.coe_image, Set.mem_image, Finset.mem_coe,
    Finset.mem_product]
  refine ⟨(t, (p.1 - t, p.2)), ⟨ht, hg.mem_toFinset.mpr hgne⟩, ?_⟩
  simp

lemma blurCol_support_subset (sigma : ℝ) (g : Grid)
    (hg : (Function.support g).Finite) :
    Function.support (blurCol sigma g) ⊆
      ↑(Finset.image (fun tq : ℤ × (ℤ × ℤ) => (tq.2.1, tq.2.2 + tq.1))
        ((Finset.Icc (-gRadius sigma) (gRadius sigma)) ×ˢ hg.toFinset)) := by
  intro p hp
  have hex : ∃ t ∈ Finset.Icc (-gRadius sigma) (gRadius sigma),
      gKernel sigma t * g (p.1, p.2 - t) ≠ 0 := by
    by_contra hall
    push_neg at hall
    exact hp (Finset.sum_eq_zero hall)
  obtain ⟨t, ht, hne⟩ := hex
  have hgne : g (p.1, p.2 - t) ≠ 0 := fun h0 => hne (by rw [h0, mul_zero])
  simp only [Finset.coe_image, Set.mem_image, Finset.mem_coe,
    Finset.mem_product]
  refine ⟨(t, (p.1, p.2 - t)), ⟨ht, hg.mem_toFinset.mpr hgne⟩, ?_⟩
  simp

lemma blurRow_support_finite (sigma : ℝ) (g : Grid)
    (hg : (Function.support g).Finite) :
    (Function.support (blurRow sigma g)).Finite :=
  Set.Finite.subset (Finset.finite_toSet _) (blurRow_support_subset sigma g hg)

lemma blurCol_support_finite (sigma : ℝ) (g : Grid)
    (hg : (Function.support g).Finite) :
    (Function.support (blurCol sigma g)).Finite :=
  Set.Finite.subset (Finset.finite_toSet _) (blurCol_support_subset sigma g hg)

lemma mass_blurRow (sigma : ℝ) (hs : 0 ≤ sigma) (g : Grid)
    (hg : (Function.support g).Finite) : mass (blurRow sigma g) = mass g := by
  classical
  unfold mass
  rw [finsum_eq_sum_of_support_subset _ (blurRow_support_subset sigma g hg)]
  unfold blurRow
  rw [Finset.sum_comm]
  have hinner : ∀ t ∈ Finset.Icc (-gRadius sigma) (gRadius sigma),
      ∑ p in Finset.image (fun tq : ℤ × (ℤ × ℤ) => (tq.2.1 + tq.1, tq.2.2))
          ((Finset.Icc (-gRadius sigma) (gRadius sigma)) ×ˢ hg.toFinset),
        gKernel sigma t * g (p.1 - t, p.2) =
      gKernel sigma t * ∑ᶠ p, g p := by
    intro t ht
    rw [← Finset.mul_sum]
    congr 1
    have hsub2 : Function.support (fun p : ℤ × ℤ => g (p.1 - t, p.2)) ⊆
        ↑(Finset.image (fun tq : ℤ × (ℤ × ℤ) => (tq.2.1 + tq.1, tq.2.2))
          ((Finset.Icc (-gRadius sigma) (gRadius sigma)) ×ˢ hg.toFinset)) := by
      intro p hp
      simp only [Finset.coe_image, Set.mem_image, Finset.mem_coe,
        Finset.mem_product]
      refine ⟨(t, (p.1 - t, p.2)), ⟨ht, hg.mem_toFinset.mpr hp⟩, ?_⟩
      simp
    rw [← finsum_eq_sum_of_support_subset _ hsub2]
    exact finsum_translate_row g t
  rw [Finset.sum_congr rfl hinner, ← Finset.sum_mul, gKernel_sum sigma hs,
    one_mul]

lemma mass_blurCol (sigma : ℝ) (hs : 0 ≤ sigma) (g : Grid)
    (hg : (Function.support g).Finite) : mass (blurCol sigma g) = mass g := by
  classical
  unfold mass
  rw [finsum_eq_sum_of_support_subset _ (blurCol_support_subset sigma g hg)]
  unfold blurCol
  rw [Finset.sum_comm]
  have hinner : ∀ t ∈ Finset.Icc (-gRadius sigma) (gRadius sigma),
      ∑ p in Finset.image (fun tq : ℤ × (ℤ × ℤ) => (tq.2.1, tq.2.2 + tq.1))
          ((Finset.Icc (-gRadius sigma) (gRadius sigma)) ×ˢ hg.toFinset),
        gKernel sigma t * g (p.1, p.2 - t) =
      gKernel sigma t * ∑ᶠ p, g p := by
    intro t ht
    rw [← Finset.mul_sum]
    congr 1
    have hsub2 : Function.support (fun p : ℤ × ℤ => g (p.1, p.2 - t)) ⊆
        ↑(Finset.image (fun tq : ℤ × (ℤ × ℤ) => (tq.2.1, tq.2.2 + tq.1))
          ((Finset.Icc (-gRadius sigma) (gRadius sigma)) ×ˢ hg.toFinset)) := by
      intro p hp
      simp only [Finset.coe_image, Set.mem_image, Finset.mem_coe,
        Finset.mem_product]
      refine ⟨(t, (p.1, p.2 - t)), ⟨ht, hg.mem_toFinset.mpr hp⟩, ?_⟩
      simp
    rw [← finsum_eq_sum_of_support_subset _ hsub2]
    exact finsum_translate_col g t
  rw [Finset.sum_congr rfl hinner, ← Finset.sum_mul, gKernel_sum sigma hs,
    one_mul]

lemma gaussianFilter_support_finite (sigma : ℝ) (g : Grid)
    (hg : (Function.support g).Finite) :
    (Function.support (gaussianFilter sigma g)).Finite :=
  blurCol_support_finite sigma _ (blurRow_support_finite sigma g hg)

lemma mass_gaussianFilter (sigma : ℝ) (hs : 0 ≤ sigma) (g : Grid)
    (hg : (Function.support g).Finite) :
    mass (gaussianFilter sigma g) = mass g := by
  unfold gaussianFilter
  rw [mass_blurCol sigma hs _ (blurRow_support_finite sigma g hg),
    mass_blurRow sigma hs g hg]

lemma shiftLin_zero (g : Grid) : shiftLin 0 0 g = g := by
  funext p
  unfold shiftLin
  simp [Int.floor_intCast]

lemma windDx_zero (d h : ℝ) : windDx 0 d h = 0 := by
  unfold windDx
  ring

lemma windDy_zero (d h : ℝ) : windDy 0 d h = 0 := by
  unfold windDy
  ring

lemma dispStep_zero (h d : ℝ) (g : Grid) :
    dispStep h d 0 g = fun p => decayRate * gaussianFilter 1 g p := by
  unfold dispStep
  rw [windDx_zero, windDy_zero, shiftLin_zero]
  norm_num

lemma mass_smul (c : ℝ) (g : Grid) (hg : (Function.support g).Finite) :
    mass (fun p => c * g p) = c * mass g :=
  (mul_finsum g c hg).symm

lemma smul_support_finite (c : ℝ) (g : Grid)
    (hg : (Function.support g).Finite) :
    (Function.support (fun p => c * g p)).Finite := by
  apply Set.Finite.subset hg
  intro p hp
  have hp2 : c * g p ≠ 0 := hp
  exact fun h0 => hp2 (by rw [h0, mul_zero])

lemma dispStep_zero_mass (h d : ℝ) (g : Grid)
    (hg : (Function.support g).Finite) :
    mass (dispStep h d 0 g) = decayRate * mass g ∧
      (Function.support (dispStep h d 0 g)).Finite := by
  rw [dispStep_zero]
  constructor
  · rw [mass_smul _ _ (gaussianFilter_support_finite 1 g hg),
      mass_gaussianFilter 1 (by norm_num) g hg]
  · exact smul_support_finite decayRate _
      (gaussianFilter_support_finite 1 g hg)

lemma gridAt_mass_zero_speeds (h : ℝ) (dirs speeds : List ℝ) (g0 : Grid)
    (hg0 : (Function.support g0).Finite) :
    ∀ k, (∀ i < k, speeds.getD i 0 = 0) →
      mass (gridAt h dirs speeds g0 k) = decayRate ^ k * mass g0 ∧
        (Function.support (gridAt h dirs speeds g0 k)).Finite := by
  intro k
  induction k with
  | zero => intro _; exact ⟨by simp [gridAt], hg0⟩
  | succ k ih =>
      intro hz
      have hzk : speeds.getD k 0 = 0 := hz k (Nat.lt_succ_self k)
      have ihk := ih (fun i hi => hz i (Nat.lt_succ_of_lt hi))
      have hgrid : gridAt h dirs speeds g0 (k + 1) =
          dispStep h (dirs.getD k 0) (speeds.getD k 0)
            (gridAt h dirs speeds g0 k) := rfl
      rw [hgrid, hzk]
      obtain ⟨hm, hf⟩ := dispStep_zero_mass h (dirs.getD k 0)
        (gridAt h dirs speeds g0 k) ihk.2
      refine ⟨?_, hf⟩
      rw [hm, ihk.1]
      ring

/-- C3: with wind speed 0 at every step, `predict_dispersion` succeeds
and the total mass of the grid at step `k` equals the initial mass
times `decay_rate ^ k` (exactly, in the real-valued idealisation on the
unbounded lattice — the claim's caveats about floating tolerance and
boundary-lost diffusion mass do not arise there). -/
theorem dispersion_mass_decay (timeSteps : ℕ) (h : ℝ) (g0 : Grid)
    (dirs speeds : List ℝ) (hg0 : (Function.support g0).Finite)
    (hlen : ¬(dirs.length < timeSteps ∨ speeds.length < timeSteps))
    (hz : ∀ i < timeSteps, speeds.getD i 0 = 0) :
    ∃ grids, predictDispersion timeSteps h g0 dirs speeds = .ok grids ∧
      grids.length = timeSteps + 1 ∧
      ∀ k, k < grids.length →
        mass (grids.getD k g0) = decayRate ^ k * mass g0 := by
  refine ⟨(List.range (timeSteps + 1)).map (gridAt h dirs speeds g0), ?_, ?_, ?_⟩
  · unfold predictDispersion
    rw [if_neg hlen]
  · simp
  · intro k hk
    simp only [List.length_map, List.length_range] at hk
    have hget : ((List.range (timeSteps + 1)).map
        (gridAt h dirs speeds g0)).getD k g0 = gridAt h dirs speeds g0 k := by
      rw [List.getD_eq_getElem?_getD, List.getElem?_map, List.getElem?_range hk]
      rfl
    rw [hget]
    exact (gridAt_mass_zero_speeds h dirs speeds g0 hg0 k
      (fun i hi => hz i (by omega))).1

/-- C7 (amended): `predict_dispersion` fails (ValueError) if and only if
the wind-direction list or the wind-speed list is shorter than the
configured step count; lists longer than the step count are accepted and
the extra entries ignored. -/
theorem predict_dispersion_error_iff (timeSteps : ℕ) (h : ℝ) (g0 : Grid)
    (dirs speeds : List ℝ) :
    (∃ e, predictDispersion timeSteps h g0 dirs speeds = .error e) ↔
      (dirs.length < timeSteps ∨ speeds.length < timeSteps) := by
  unfold predictDispersion
  by_cases hc : dirs.length < timeSteps ∨ speeds.length < timeSteps
  · simp [hc]
  · simp [hc]

/-- Identically-zero grid used in concrete dispersion runs. -/
noncomputable def gZero : Grid := fun _ => 0

/-- Counterexample to C7 as stated: with step count 1 and both wind
lists of length 2 (so the three lengths are not all equal, and both
lists are longer than the step count), `predict_dispersion` succeeds
instead of failing. -/
theorem predict_dispersion_longer_lists_counterexample :
    ([(0 : ℝ), 0].length ≠ 1 ∧ 1 < [(0 : ℝ), 0].length) ∧
    ∃ gs, predictDispersion 1 1 gZero [0, 0] [0, 0] = .ok gs :=
  ⟨⟨by decide, by decide⟩, ⟨_, rfl⟩⟩

/-- Point-mass grid used for the C3 witness. -/
noncomputable def gUnit : Grid := fun p => if p = ((0 : ℤ), (0 : ℤ)) then 1 else 0

/-- Witness for C3 at a concrete input: one step, wind speed 0. -/
theorem dispersion_mass_decay_witness :
    (¬([(0 : ℝ)].length < 1 ∨ [(0 : ℝ)].length < 1)) ∧
    (∀ i < 1, [(0 : ℝ)].getD i 0 = 0) ∧
    ∃ grids, predictDispersion 1 1 gUnit [0] [0] = .ok grids ∧
      grids.length = 1 + 1 ∧
      ∀ k, k < grids.length →
        mass (grids.getD k gUnit) = decayRate ^ k * mass gUnit := by
  have hfin : (Function.support gUnit).Finite := by
    apply Set.Finite.subset (Set.finite_singleton ((0 : ℤ), (0 : ℤ)))
    intro p hp
    by_cases hpz : p = ((0 : ℤ), (0 : ℤ))
    · exact hpz ▸ rfl
    · exact absurd (by show gUnit p = 0; unfold gUnit; rw [if_neg hpz]) hp
  have hlen : ¬([(0 : ℝ)].length < 1 ∨ [(0 : ℝ)].length < 1) := by decide
  have hz : ∀ i < 1, [(0 : ℝ)].getD i 0 = 0 := by
    intro i hi
    interval_cases i
    rfl
  exact ⟨hlen, hz, dispersion_mass_decay 1 1 gUnit [0] [0] hfin hlen hz⟩

end Dispersion
